import Mathlib

/-!
Verification of the backloop review-coordination engine against its
natural-language specification.  The definitions below are shallow
embeddings of the Python sources:

* `src/reviewer/models.py`    → the diff data model
* `src/reviewer/git_service.py` → the diff parser, the merge operation and
  the git subprocess wrapper
* `src/backloop/review_manager.py` → the comment queue / approval protocol
* `src/loopback/file_watcher.py` → debounce and watch start logic
-/

namespace Backloop

/-! ## Diff data model (src/reviewer/models.py) -/

/-- `LineType` from models.py. -/
inductive LineType where
  | addition
  | deletion
  | context
deriving DecidableEq, BEq, Repr

/-- `DiffLine` from models.py. -/
structure DiffLine where
  type : LineType
  old_num : Option Nat
  new_num : Option Nat
  content : String
deriving DecidableEq, Repr

/-- `DiffChunk` from models.py. -/
structure DiffChunk where
  old_start : Nat
  old_lines : Nat
  new_start : Nat
  new_lines : Nat
  lines : List DiffLine
deriving DecidableEq, Repr

/-- `DiffFile` from models.py. -/
structure DiffFile where
  path : String
  old_path : Option String
  additions : Nat
  deletions : Nat
  chunks : List DiffChunk
  is_binary : Bool
  is_renamed : Bool
deriving DecidableEq, Repr

/-! ## String helpers (embedding Python str operations on `List Char`) -/

/-- Python `line.startswith(p)`. -/
def lineStarts (line : String) (p : String) : Bool :=
  p.data.isPrefixOf line.data

/-- Python `line[1:]`. -/
def strTail (line : String) : String :=
  String.mk (line.data.drop 1)

/-- Auxiliary accumulator for `splitLines`. -/
def splitLinesAux : List Char → List Char → List String
  | [], acc => [String.mk acc.reverse]
  | '\n' :: rest, acc => String.mk acc.reverse :: splitLinesAux rest []
  | c :: rest, acc => splitLinesAux rest (c :: acc)

/-- Python `s.split('\n')`. -/
def splitLines (s : String) : List String :=
  splitLinesAux s.data []

/-- Break a char list at the LAST occurrence of `sep`, returning the parts
before and after it.  This models the greedy regex `(.*) sep (.*)`. -/
def breakLastOn (sep : List Char) : List Char → Option (List Char × List Char)
  | [] => none
  | c :: rest =>
    match breakLastOn sep rest with
    | some (pre, suf) => some (c :: pre, suf)
    | none =>
      if sep.isPrefixOf (c :: rest) then some ([], (c :: rest).drop sep.length)
      else none

/-- Value of a digit string (the digits of `int(...)` on a `\d+` group). -/
def digitsVal (ds : List Char) : Nat :=
  ds.foldl (fun a c => a * 10 + (c.toNat - 48)) 0

/-- Match a literal `p` at the start and return the remainder. -/
def dropExact (p : List Char) (cs : List Char) : Option (List Char) :=
  if p.isPrefixOf cs then some (cs.drop p.length) else none

/-- Match the regex fragment `(\d+)` at the start: at least one digit,
greedily consumed. -/
def readNatFrom (cs : List Char) : Option (Nat × List Char) :=
  let ds := cs.takeWhile Char.isDigit
  if ds.isEmpty then none else some (digitsVal ds, cs.dropWhile Char.isDigit)

/-- Match the optional regex fragment `(?:,(\d+))?` at the start.  When a
comma is not followed by a digit the group does not match and the input
position is unchanged. -/
def readOptCount (cs : List Char) : Option Nat × List Char :=
  match cs with
  | ',' :: rest =>
    match readNatFrom rest with
    | some (n, rest2) => (some n, rest2)
    | none => (none, cs)
  | _ => (none, cs)

/-! ## Diff parser state (the locals of `GitService._parse_diff_output`) -/

/-- The `current_chunk` dict of `_parse_diff_output`.  The keys
`current_old` / `current_new` are absent until first set, which the code
reads back with `.get(key, chunk_start)`; absence is `none` here. -/
structure ChunkData where
  old_start : Nat
  old_lines : Nat
  new_start : Nat
  new_lines : Nat
  lines : List DiffLine
  current_old : Option Nat
  current_new : Option Nat
deriving DecidableEq, Repr

/-- The `current_file` dict of `_parse_diff_output`. -/
structure FileData where
  old_path : String
  path : String
  chunks : List DiffChunk
  additions : Nat
  deletions : Nat
  is_binary : Bool
  is_renamed : Bool
deriving DecidableEq, Repr

/-- The loop state of `_parse_diff_output`: emitted files plus the two
cursors. -/
structure ParseState where
  files : List DiffFile
  current_file : Option FileData
  current_chunk : Option ChunkData
deriving DecidableEq, Repr

/-- `GitService._finalize_chunk`. -/
def finalizeChunk (c : ChunkData) : DiffChunk :=
  { old_start := c.old_start
    old_lines := c.old_lines
    new_start := c.new_start
    new_lines := c.new_lines
    lines := c.lines }

/-- `GitService._finalize_file`: `old_path` is normalized to `none` when it
equals `path`. -/
def finalizeFile (f : FileData) : DiffFile :=
  { path := f.path
    old_path := if f.old_path ≠ f.path then some f.old_path else none
    additions := f.additions
    deletions := f.deletions
    chunks := f.chunks
    is_binary := f.is_binary
    is_renamed := f.is_renamed }

/-- The regex `re.match(r'diff --git a/(.*) b/(.*)', line)`:  both groups
are greedy, so the split happens at the last occurrence of `" b/"`. -/
def parseGitHeaderLine (line : String) : Option (String × String) :=
  if lineStarts line "diff --git a/" then
    match breakLastOn " b/".data (line.data.drop 13) with
    | some (pre, suf) => some (String.mk pre, String.mk suf)
    | none => none
  else none

/-- The regex `re.match(r'@@ -(\d+)(?:,(\d+))? \+(\d+)(?:,(\d+))? @@', line)`
together with the construction of the fresh chunk dict (missing counts
default to 1). -/
def parseChunkHeaderLine (line : String) : Option ChunkData := do
  let cs0 ← dropExact "@@ -".data line.data
  let (oldStart, cs1) ← readNatFrom cs0
  let (oldCount, cs2) := readOptCount cs1
  let cs3 ← dropExact " +".data cs2
  let (newStart, cs4) ← readNatFrom cs3
  let (newCount, cs5) := readOptCount cs4
  let _ ← dropExact " @@".data cs5
  some { old_start := oldStart
         old_lines := oldCount.getD 1
         new_start := newStart
         new_lines := newCount.getD 1
         lines := []
         current_old := none
         current_new := none }

/-- One iteration of the `while i < len(lines)` loop of
`GitService._parse_diff_output`, acting on one line. -/
def processLine (st : ParseState) (line : String) : ParseState :=
  if lineStarts line "diff --git" then
    let files := match st.current_file with
      | some f => st.files ++ [finalizeFile f]
      | none => st.files
    match parseGitHeaderLine line with
    | some ab =>
      { files := files
        current_file := some { old_path := ab.1, path := ab.2, chunks := [],
                               additions := 0, deletions := 0,
                               is_binary := false, is_renamed := false }
        current_chunk := st.current_chunk }
    | none =>
      { files := files
        current_file := st.current_file
        current_chunk := st.current_chunk }
  else if lineStarts line "Binary files" then
    match st.current_file with
    | some f => { st with current_file := some { f with is_binary := true } }
    | none => st
  else if lineStarts line "similarity index" || lineStarts line "rename from" then
    match st.current_file with
    | some f => { st with current_file := some { f with is_renamed := true } }
    | none => st
  else if lineStarts line "@@" then
    let st1 := match st.current_file, st.current_chunk with
      | some f, some c =>
        { st with current_file := some { f with chunks := f.chunks ++ [finalizeChunk c] } }
      | _, _ => st
    match parseChunkHeaderLine line with
    | some c => { st1 with current_chunk := some c }
    | none => st1
  else
    match st.current_chunk with
    | none => st
    | some c =>
      if lineStarts line " " then
        let oldN := c.current_old.getD c.old_start
        let newN := c.current_new.getD c.new_start
        { st with current_chunk := some { c with
            lines := c.lines ++ [{ type := LineType.context, old_num := some oldN,
                                   new_num := some newN, content := strTail line }]
            current_old := some (oldN + 1)
            current_new := some (newN + 1) } }
      else if lineStarts line "-" then
        let oldN := c.current_old.getD c.old_start
        let st1 : ParseState := { st with current_chunk := some { c with
            lines := c.lines ++ [{ type := LineType.deletion, old_num := some oldN,
                                   new_num := none, content := strTail line }]
            current_old := some (oldN + 1) } }
        match st1.current_file with
        | some f => { st1 with current_file := some { f with deletions := f.deletions + 1 } }
        | none => st1
      else if lineStarts line "+" then
        let newN := c.current_new.getD c.new_start
        let st1 : ParseState := { st with current_chunk := some { c with
            lines := c.lines ++ [{ type := LineType.addition, old_num := none,
                                   new_num := some newN, content := strTail line }]
            current_new := some (newN + 1) } }
        match st1.current_file with
        | some f => { st1 with current_file := some { f with additions := f.additions + 1 } }
        | none => st1
      else st

/-- `GitService._parse_diff_output`. -/
def parseDiffOutput (diff_output : String) : List DiffFile :=
  let st := (splitLines diff_output).foldl processLine
    { files := [], current_file := none, current_chunk := none }
  let st1 := match st.current_chunk, st.current_file with
    | some c, some f =>
      { st with current_file := some { f with chunks := f.chunks ++ [finalizeChunk c] } }
    | _, _ => st
  match st1.current_file with
  | some f => st1.files ++ [finalizeFile f]
  | none => st1.files

/-- Number of Addition lines across a list of chunks (the count the spec
says `additions` must equal). -/
def chunkAddCount (chunks : List DiffChunk) : Nat :=
  (chunks.map (fun c => c.lines.countP (fun l => l.type == LineType.addition))).sum

/-- Number of Deletion lines across a list of chunks. -/
def chunkDelCount (chunks : List DiffChunk) : Nat :=
  (chunks.map (fun c => c.lines.countP (fun l => l.type == LineType.deletion))).sum

/-! ## Merge operation (`GitService._merge_diff_files`) -/

/-- Python `main_file.old_path or additional_file.old_path`: both `None`
and the empty string are falsy. -/
def pyOrStr (a b : Option String) : Option String :=
  match a with
  | some s => if s.isEmpty then b else some s
  | none => b

/-- The combined record built when a file appears in both lists. -/
def combineFiles (main_file additional_file : DiffFile) : DiffFile :=
  { path := additional_file.path
    old_path := pyOrStr main_file.old_path additional_file.old_path
    additions := main_file.additions + additional_file.additions
    deletions := main_file.deletions + additional_file.deletions
    chunks := main_file.chunks ++ additional_file.chunks
    is_binary := main_file.is_binary || additional_file.is_binary
    is_renamed := main_file.is_renamed || additional_file.is_renamed }

/-- The `for i, f in enumerate(merged_files): if f.path == path:
merged_files[i] = merged_file; break` replacement. -/
def replaceFirstByPath (l : List DiffFile) (p : String) (nf : DiffFile) : List DiffFile :=
  match l with
  | [] => []
  | f :: rest => if f.path = p then nf :: rest else f :: replaceFirstByPath rest p nf

/-- Lookup in `main_files_dict = {f.path: f for f in main_files}`: the last
file with a given path wins. -/
def mainFilesLookup (main_files : List DiffFile) (p : String) : Option DiffFile :=
  main_files.reverse.find? (fun f => decide (f.path = p))

/-- The `for additional_file in additional_files` loop of
`_merge_diff_files`, carrying the `merged_files` accumulator. -/
def mergeLoop (main_files : List DiffFile) : List DiffFile → List DiffFile → List DiffFile
  | merged, [] => merged
  | merged, af :: rest =>
    match mainFilesLookup main_files af.path with
    | some mf => mergeLoop main_files (replaceFirstByPath merged af.path (combineFiles mf af)) rest
    | none => mergeLoop main_files (merged ++ [af]) rest

/-- `GitService._merge_diff_files`. -/
def mergeDiffFiles (main_files additional_files : List DiffFile) : List DiffFile :=
  mergeLoop main_files main_files additional_files

/-- Following the spec's words (for comparison with the code): the record
the merge produces at a base file's position — combined when a file with
the same path occurs in extra, unchanged otherwise. -/
def specMergeFile (extra : List DiffFile) (b : DiffFile) : DiffFile :=
  match extra.find? (fun e => decide (e.path = b.path)) with
  | some e => combineFiles b e
  | none => b

/-- Whether `e`'s path occurs in no base file. -/
def pathNotIn (base : List DiffFile) (e : DiffFile) : Bool :=
  !(base.any (fun b => decide (b.path = e.path)))

/-- Following the spec's words: all base files in original position
(combined in place), then the extra files whose path occurs in no base
file, in their original order. -/
def specMerge (base extra : List DiffFile) : List DiffFile :=
  base.map (specMergeFile extra) ++ extra.filter (pathNotIn base)

/-! ## Git subprocess wrapper (`GitService._run_git_command`) -/

/-- Outcome of a `subprocess.run` call, provided as an explicit input. -/
structure ProcResult where
  returncode : Int
  stdout : String
  stderr : String
deriving DecidableEq, Repr

/-- Python `needle in hay` on char lists. -/
def containsSub (needle : List Char) : List Char → Bool
  | [] => needle.isPrefixOf []
  | c :: rest => needle.isPrefixOf (c :: rest) || containsSub needle rest

/-- Python `needle in hay` on strings. -/
def strContains (hay needle : String) : Bool :=
  containsSub needle.data hay.data

/-- `GitService._run_git_command`: with `check=True` the subprocess call
raises exactly when the return code is nonzero; the handler returns empty
output for the two recognized stderr patterns and re-raises otherwise. -/
def runGitCommand (cmd : List String) (res : ProcResult) : Except String String :=
  if res.returncode = 0 then Except.ok res.stdout
  else if strContains res.stderr "does not exist" || strContains res.stderr "bad revision" then
    Except.ok ""
  else
    Except.error ("Git command failed: " ++ String.intercalate " " cmd ++ ": " ++ res.stderr)

/-! ## Python dict helpers (insertion-ordered association lists) -/

/-- `d.get(k)` / `d[k]`. -/
def dictGetOpt {α : Type} (d : List (String × α)) (k : String) : Option α :=
  match d with
  | [] => none
  | kv :: rest => if kv.1 = k then some kv.2 else dictGetOpt rest k

/-- `d.get(k, v)`. -/
def dictGetD {α : Type} (d : List (String × α)) (k : String) (v : α) : α :=
  (dictGetOpt d k).getD v

/-- `d[k] = v`: overwrite in place, else append (insertion order kept). -/
def dictSet {α : Type} (d : List (String × α)) (k : String) (v : α) : List (String × α) :=
  match d with
  | [] => [(k, v)]
  | kv :: rest => if kv.1 = k then (k, v) :: rest else kv :: dictSet rest k v

/-- `d.pop(k, None)`: drop the entry with key `k`. -/
def dictPop {α : Type} (d : List (String × α)) (k : String) : List (String × α) :=
  match d with
  | [] => []
  | kv :: rest => if kv.1 = k then rest else kv :: dictPop rest k

/-! ## Review coordination (`backloop/review_manager.py`) -/

/-- Comment lifecycle states (spec §3). -/
inductive CommentStatus where
  | queued
  | inProgress
  | resolved
deriving DecidableEq, Repr

/-- Modelled from the spec: `backloop/models.py` is not under src/ (only
its importers are).  Spec §3: a comment carries id, file_path, line_number,
side, content, author, timestamp and status. -/
structure Comment where
  id : String
  file_path : String
  line_number : Nat
  side : String
  content : String
  author : String
  timestamp : String
  status : CommentStatus
deriving DecidableEq, Repr

/-- `PendingComment` from review_manager.py. -/
structure PendingComment where
  review_id : String
  comment : Comment
deriving DecidableEq, Repr

/-- Modelled from the spec: backloop's comment service is not under src/.
Spec §4.2: a per-review store keyed by comment id; `update_status` is a
direct status transition of the stored comment. -/
def storeUpdateStatus : List (String × Comment) → String → CommentStatus →
    List (String × Comment)
  | [], _, _ => []
  | kv :: rest, cid, st =>
    (if kv.1 = cid then (kv.1, { kv.2 with status := st }) else kv) ::
      storeUpdateStatus rest cid st

/-- The coordination state owned by `ReviewManager`: the sessions' comment
stores, the FIFO `_pending_comments` queue (head = front), the
`_pending_comment_counts` dict and the `_review_approved` dict. -/
structure ManagerState where
  active_reviews : List (String × List (String × Comment))
  pending_comments : List PendingComment
  pending_comment_counts : List (String × Nat)
  review_approved : List (String × Bool)
deriving DecidableEq, Repr

/-- A freshly constructed `ReviewManager`. -/
def initState : ManagerState :=
  { active_reviews := [], pending_comments := [],
    pending_comment_counts := [], review_approved := [] }

/-- `ReviewManager.create_review_session` (registers an empty store). -/
def createReview (s : ManagerState) (rid : String) : ManagerState :=
  { s with active_reviews := dictSet s.active_reviews rid [] }

/-- The `create_review_comment` route followed by
`ReviewManager.add_comment_to_queue`: a missing review is a 404 (state
unchanged); otherwise the comment is stored with status Queued (spec §4.2
`add`), the review's pending count is incremented and the pair is enqueued. -/
def submitComment (s : ManagerState) (rid : String) (c : Comment) : ManagerState :=
  match dictGetOpt s.active_reviews rid with
  | none => s
  | some store =>
    let c1 : Comment := { c with status := CommentStatus.queued }
    { active_reviews := dictSet s.active_reviews rid (dictSet store c1.id c1)
      pending_comments := s.pending_comments ++ [{ review_id := rid, comment := c1 }]
      pending_comment_counts :=
        dictSet s.pending_comment_counts rid (dictGetD s.pending_comment_counts rid 0 + 1)
      review_approved := s.review_approved }

/-- The `approve_review` route: a missing review is a 404; otherwise
`_review_approved[review_id] = True`. -/
def approveReview (s : ManagerState) (rid : String) : ManagerState :=
  match dictGetOpt s.active_reviews rid with
  | none => s
  | some _ => { s with review_approved := dictSet s.review_approved rid true }

/-- The two possible outcomes of `ReviewManager.await_comments`. -/
inductive AwaitResult where
  | comment (pc : PendingComment)
  | approved (review_id : String)
deriving DecidableEq, Repr

/-- The state mutations of `await_comments` when a comment is dequeued:
the review's pending count is decremented (entry popped at ≤ 1), the
stored comment is transitioned to InProgress when its review session still
exists, and the queue loses its head. -/
def dequeueStep (s : ManagerState) (pc : PendingComment) (rest : List PendingComment) :
    ManagerState :=
  { active_reviews :=
      match dictGetOpt s.active_reviews pc.review_id with
      | some store =>
        dictSet s.active_reviews pc.review_id
          (storeUpdateStatus store pc.comment.id CommentStatus.inProgress)
      | none => s.active_reviews
    pending_comments := rest
    pending_comment_counts :=
      if dictGetD s.pending_comment_counts pc.review_id 0 ≤ 1 then
        dictPop s.pending_comment_counts pc.review_id
      else
        dictSet s.pending_comment_counts pc.review_id
          (dictGetD s.pending_comment_counts pc.review_id 0 - 1)
    review_approved := s.review_approved }

/-- `ReviewManager.await_comments`.  The polling loop first scans
`_review_approved` in insertion order for an approved review with zero
pending count, then takes the queue head; with no concurrent producer an
empty queue and no such review would make the loop spin forever, which is
`none` here. -/
def awaitComments (s : ManagerState) : Option (AwaitResult × ManagerState) :=
  match s.review_approved.find?
      (fun kv => kv.2 && decide (dictGetD s.pending_comment_counts kv.1 0 = 0)) with
  | some kv => some (AwaitResult.approved kv.1, s)
  | none =>
    match s.pending_comments with
    | [] => none
    | pc :: rest => some (AwaitResult.comment pc, dequeueStep s pc rest)

/-- Iterate `awaitComments` n times, collecting the returned results. -/
def awaitN : Nat → ManagerState → List AwaitResult × ManagerState
  | 0, s => ([], s)
  | n + 1, s =>
    match awaitComments s with
    | none => ([], s)
    | some rs =>
      let tail := awaitN n rs.2
      (rs.1 :: tail.1, tail.2)

/-- Status of the comment `cid` as recorded in review `rid`'s store. -/
def commentStatus (s : ManagerState) (rid cid : String) : Option CommentStatus :=
  (dictGetOpt s.active_reviews rid).bind
    (fun store => (dictGetOpt store cid).map (fun c => c.status))

/-! ## File watcher (`loopback/file_watcher.py`) -/

/-- The debounce state of `ReviewFileSystemEventHandler`; timestamps are
rationals, the debounce window is 1/2 (the code's 0.5 seconds). -/
structure HandlerState where
  last_event_times : List (String × ℚ)
deriving DecidableEq

/-- `self._debounce_time = 0.5`. -/
def debounceTime : ℚ := 1 / 2

/-- `ReviewFileSystemEventHandler._should_emit_event`. -/
def shouldEmitEvent (s : HandlerState) (file_path : String) (current_time : ℚ) :
    Bool × HandlerState :=
  let last_time := dictGetD s.last_event_times file_path 0
  if current_time - last_time < debounceTime then (false, s)
  else (true, { last_event_times := dictSet s.last_event_times file_path current_time })

/-- Feed `on_modified` a sequence of modification times for one path and
count the FileChanged events emitted. -/
def countEmitted (p : String) : HandlerState → List ℚ → Nat × HandlerState
  | s, [] => (0, s)
  | s, t :: ts =>
    let r := shouldEmitEvent s p t
    let rest := countEmitted p r.2 ts
    ((if r.1 then 1 else 0) + rest.1, rest.2)

/-- The mutable state of `FileWatcher`: whether an Observer thread is
running, the keys of `watch_handles`, and `_is_watching`. -/
structure WatcherState where
  observer_running : Bool
  watch_handles : List String
  is_watching : Bool
deriving DecidableEq, Repr

/-- `FileWatcher.start_watching`; `schedule_ok` says whether
`observer.schedule` succeeds (on failure the code prints a warning and
keeps going). -/
def startWatching (s : WatcherState) (directory : String) (schedule_ok : Bool) : WatcherState :=
  if s.is_watching then s
  else
    let s1 : WatcherState := { s with observer_running := true }
    if schedule_ok then
      { s1 with
        watch_handles :=
          if s1.watch_handles.contains directory then s1.watch_handles
          else s1.watch_handles ++ [directory]
        is_watching := true }
    else s1

/-! ## Concrete inputs used by the claims -/

/-- The end-to-end diff text of spec §8. -/
def endDiff : String := "diff --git a/f b/f\n@@ -1,1 +1,2 @@\n-old\n+new1\n+new2\n"

/-- A minimal two-file diff: each file has one hunk with one added line. -/
def twoFileDiff : String :=
  "diff --git a/A b/A\n@@ -1,1 +1,1 @@\n+x\ndiff --git a/B b/B\n@@ -1,1 +1,1 @@\n+y\n"

/-- An open chunk holding one already-counted added line. -/
def chunkA : ChunkData :=
  { old_start := 1, old_lines := 1, new_start := 1, new_lines := 1,
    lines := [{ type := LineType.addition, old_num := none, new_num := some 1, content := "x" }],
    current_old := none, current_new := some 2 }

/-- The file record for `A` while `chunkA` is still open. -/
def fileA : FileData :=
  { old_path := "A", path := "A", chunks := [], additions := 1, deletions := 0,
    is_binary := false, is_renamed := false }

/-- Parser state mid-way through `twoFileDiff`: file `A` current, its hunk
still open, when the `diff --git a/B b/B` boundary arrives. -/
def stateA : ParseState :=
  { files := [], current_file := some fileA, current_chunk := some chunkA }

/-- A diff file record with the given path, old_path and addition count. -/
def mkFile (p : String) (op : Option String) (adds : Nat) : DiffFile :=
  { path := p, old_path := op, additions := adds, deletions := 0, chunks := [],
    is_binary := false, is_renamed := false }

/-- A concrete comment. -/
def cComment : Comment :=
  { id := "c1", file_path := "file.py", line_number := 3, side := "right",
    content := "fix this", author := "User", timestamp := "t0",
    status := CommentStatus.queued }

/-- Reviews r1, r2; r1 approved with nothing pending; one comment then
submitted for r2.  (A first `await` on the pre-submission state returns
`ReviewApproved r1` and leaves the state unchanged.) -/
def c4State : ManagerState :=
  submitComment (approveReview (createReview (createReview initState "r1") "r2") "r1")
    "r2" cComment

/-- Reviews r0 and R, both approved, both with zero pending comments; r0
was approved first. -/
def c5State : ManagerState :=
  approveReview (approveReview (createReview (createReview initState "r0") "R") "r0") "R"


/-! ### Dictionary and coordinator lemmas -/

theorem dictGetOpt_dictSet_self {α : Type} (d : List (String × α)) (k : String) (v : α) :
    dictGetOpt (dictSet d k v) k = some v := by
  induction d with
  | nil => simp [dictSet, dictGetOpt]
  | cons kv rest ih =>
    by_cases h : kv.1 = k
    · simp [dictSet, dictGetOpt, h]
    · simp [dictSet, dictGetOpt, h, ih]

theorem dictGetOpt_dictSet_ne {α : Type} (d : List (String × α)) (k k1 : String) (v : α)
    (h : k1 ≠ k) : dictGetOpt (dictSet d k v) k1 = dictGetOpt d k1 := by
  induction d with
  | nil => simp [dictSet, dictGetOpt, Ne.symm h]
  | cons kv rest ih =>
    by_cases h2 : kv.1 = k
    · simp [dictSet, dictGetOpt, h2, Ne.symm h]
    · simp [dictSet, dictGetOpt, h2, ih]

theorem dictGetOpt_dictSet_isSome {α : Type} (d : List (String × α)) (k k1 : String)
    (v : α) (h : (dictGetOpt d k1).isSome = true) :
    (dictGetOpt (dictSet d k v) k1).isSome = true := by
  by_cases he : k1 = k
  · subst he
    rw [dictGetOpt_dictSet_self]
    rfl
  · rw [dictGetOpt_dictSet_ne d k k1 v he]
    exact h

theorem storeUpdateStatus_self (store : List (String × Comment)) (cid : String)
    (st : CommentStatus) :
    dictGetOpt (storeUpdateStatus store cid st) cid
      = (dictGetOpt store cid).map (fun c => { c with status := st }) := by
  induction store with
  | nil => simp [storeUpdateStatus, dictGetOpt]
  | cons kv rest ih =>
    by_cases h : kv.1 = cid
    · simp [storeUpdateStatus, dictGetOpt, h]
    · simp [storeUpdateStatus, dictGetOpt, h, ih]

theorem storeUpdateStatus_isSome (store : List (String × Comment)) (cid k : String)
    (st : CommentStatus) :
    (dictGetOpt (storeUpdateStatus store cid st) k).isSome
      = (dictGetOpt store k).isSome := by
  induction store with
  | nil => rfl
  | cons kv rest ih =>
    by_cases h : kv.1 = cid
    · simp only [storeUpdateStatus, if_pos h, dictGetOpt]
      by_cases h2 : kv.1 = k
      · simp [h2]
      · simp [h2, ih]
    · simp only [storeUpdateStatus, if_neg h, dictGetOpt]
      by_cases h2 : kv.1 = k
      · simp [h2]
      · simp [h2, ih]

theorem comment_set_queued_eq (c : Comment) (hc : c.status = CommentStatus.queued) :
    ({ c with status := CommentStatus.queued } : Comment) = c := by
  cases c
  subst hc
  rfl

theorem submit_review_approved (s : ManagerState) (rid : String) (c : Comment) :
    (submitComment s rid c).review_approved = s.review_approved := by
  unfold submitComment
  cases dictGetOpt s.active_reviews rid <;> rfl

theorem submit_pending (s : ManagerState) (rid : String) (c : Comment)
    (h : (dictGetOpt s.active_reviews rid).isSome = true) :
    (submitComment s rid c).pending_comments
      = s.pending_comments ++
        [{ review_id := rid, comment := { c with status := CommentStatus.queued } }] := by
  unfold submitComment
  cases hrev : dictGetOpt s.active_reviews rid with
  | none => rw [hrev] at h; simp at h
  | some store => rfl

theorem submit_review_isSome (s : ManagerState) (rid rid1 : String) (c : Comment)
    (h : (dictGetOpt s.active_reviews rid1).isSome = true) :
    (dictGetOpt (submitComment s rid c).active_reviews rid1).isSome = true := by
  unfold submitComment
  cases hrev : dictGetOpt s.active_reviews rid with
  | none => exact h
  | some store => exact dictGetOpt_dictSet_isSome _ _ _ _ h

theorem submit_hasComment (s : ManagerState) (rid : String) (c : Comment)
    (h : (dictGetOpt s.active_reviews rid).isSome = true) :
    commentStatus (submitComment s rid c) rid c.id = some CommentStatus.queued := by
  unfold submitComment commentStatus
  cases hrev : dictGetOpt s.active_reviews rid with
  | none => rw [hrev] at h; simp at h
  | some store =>
    show (dictGetOpt (dictSet s.active_reviews rid
        (dictSet store c.id { c with status := CommentStatus.queued })) rid).bind
        (fun st => (dictGetOpt st c.id).map (fun cc => cc.status))
      = some CommentStatus.queued
    rw [dictGetOpt_dictSet_self, Option.some_bind, dictGetOpt_dictSet_self]
    rfl

theorem submit_hasComment_mono (s : ManagerState) (rid rid1 cid : String) (c : Comment)
    (h : (commentStatus s rid1 cid).isSome = true) :
    (commentStatus (submitComment s rid c) rid1 cid).isSome = true := by
  unfold commentStatus at h ⊢
  unfold submitComment
  cases hrev : dictGetOpt s.active_reviews rid with
  | none => exact h
  | some store =>
    show ((dictGetOpt (dictSet s.active_reviews rid
        (dictSet store c.id { c with status := CommentStatus.queued })) rid1).bind
        (fun st => (dictGetOpt st cid).map (fun cc => cc.status))).isSome = true
    by_cases he : rid1 = rid
    · subst he
      rw [hrev, Option.some_bind, Option.isSome_map'] at h
      rw [dictGetOpt_dictSet_self, Option.some_bind, Option.isSome_map']
      exact dictGetOpt_dictSet_isSome _ _ _ _ h
    · rw [dictGetOpt_dictSet_ne _ _ _ _ he]
      exact h

theorem awaitComments_dequeue (s : ManagerState) (pc : PendingComment)
    (rest : List PendingComment)
    (ha : ∀ kv ∈ s.review_approved, kv.2 = false)
    (hq : s.pending_comments = pc :: rest) :
    awaitComments s = some (AwaitResult.comment pc, dequeueStep s pc rest) := by
  have hfind : s.review_approved.find?
      (fun kv => kv.2 && decide (dictGetD s.pending_comment_counts kv.1 0 = 0)) = none := by
    apply List.find?_eq_none.mpr
    intro kv hkv
    simp [ha kv hkv]
  unfold awaitComments
  rw [hfind, hq]

theorem dequeue_status_self (s : ManagerState) (pc : PendingComment)
    (rest : List PendingComment)
    (h : (commentStatus s pc.review_id pc.comment.id).isSome = true) :
    commentStatus (dequeueStep s pc rest) pc.review_id pc.comment.id
      = some CommentStatus.inProgress := by
  unfold commentStatus at h ⊢
  unfold dequeueStep
  cases hrev : dictGetOpt s.active_reviews pc.review_id with
  | none => rw [hrev] at h; simp at h
  | some store =>
    rw [hrev, Option.some_bind, Option.isSome_map'] at h
    show ((dictGetOpt (dictSet s.active_reviews pc.review_id
        (storeUpdateStatus store pc.comment.id CommentStatus.inProgress)) pc.review_id).bind
        (fun st => (dictGetOpt st pc.comment.id).map (fun cc => cc.status)))
      = some CommentStatus.inProgress
    rw [dictGetOpt_dictSet_self, Option.some_bind, storeUpdateStatus_self]
    obtain ⟨cc, hcc⟩ := Option.isSome_iff_exists.mp h
    rw [hcc]
    rfl

theorem dequeue_hasComment_mono (s : ManagerState) (pc : PendingComment)
    (rest : List PendingComment) (rid cid : String)
    (h : (commentStatus s rid cid).isSome = true) :
    (commentStatus (dequeueStep s pc rest) rid cid).isSome = true := by
  unfold commentStatus at h ⊢
  unfold dequeueStep
  cases hrev : dictGetOpt s.active_reviews pc.review_id with
  | none => exact h
  | some store =>
    show ((dictGetOpt (dictSet s.active_reviews pc.review_id
        (storeUpdateStatus store pc.comment.id CommentStatus.inProgress)) rid).bind
        (fun st => (dictGetOpt st cid).map (fun cc => cc.status))).isSome = true
    by_cases he : rid = pc.review_id
    · subst he
      rw [hrev, Option.some_bind, Option.isSome_map'] at h
      rw [dictGetOpt_dictSet_self, Option.some_bind, Option.isSome_map',
        storeUpdateStatus_isSome]
      exact h
    · rw [dictGetOpt_dictSet_ne _ _ _ _ he]
      exact h

theorem find_first_approved (l : List (String × Bool)) (counts : List (String × Nat))
    (R : String)
    (happ : dictGetOpt l R = some true)
    (hdrained : dictGetD counts R 0 = 0)
    (hothers : ∀ kv ∈ l, kv.1 ≠ R → ¬(kv.2 = true ∧ dictGetD counts kv.1 0 = 0)) :
    l.find? (fun kv => kv.2 && decide (dictGetD counts kv.1 0 = 0)) = some (R, true) := by
  induction l with
  | nil => simp [dictGetOpt] at happ
  | cons kv rest ih =>
    by_cases h : kv.1 = R
    · have hv : kv.2 = true := by
        rw [dictGetOpt, if_pos h] at happ
        simpa using happ
      have hp : (kv.2 && decide (dictGetD counts kv.1 0 = 0)) = true := by
        simp [hv, h, hdrained]
      rw [@List.find?_cons_of_pos (String × Bool)
        (fun kv => kv.2 && decide (dictGetD counts kv.1 0 = 0)) kv rest hp]
      obtain ⟨a, b⟩ := kv
      simp only at h hv
      subst h
      subst hv
      rfl
    · have hn : ¬((kv.2 && decide (dictGetD counts kv.1 0 = 0)) = true) := by
        intro hp
        rw [Bool.and_eq_true] at hp
        rcases hp with ⟨hv, hd⟩
        exact hothers kv (List.mem_cons_self _ _) h ⟨hv, of_decide_eq_true hd⟩
      rw [@List.find?_cons_of_neg (String × Bool)
        (fun kv => kv.2 && decide (dictGetD counts kv.1 0 = 0)) kv rest hn]
      apply ih
      · rw [dictGetOpt, if_neg h] at happ
        exact happ
      · intro kv2 hm hne
        exact hothers kv2 (List.mem_cons_of_mem _ hm) hne

/-- C5 amended: if review R's approval flag is set and its pending count is
zero, and no OTHER review currently has its approval flag set with a zero
pending count, then the next wait call returns `ReviewApproved R` (leaving
the state unchanged); and as long as comments for R are still pending, no
wait call ever returns `ReviewApproved R`, so the queued comments of R are
delivered before any `ReviewApproved R` result. -/
theorem c5_approval_liveness (s s2 : ManagerState) (R : String)
    (happ : dictGetOpt s.review_approved R = some true)
    (hdrained : dictGetD s.pending_comment_counts R 0 = 0)
    (hothers : ∀ kv ∈ s.review_approved, kv.1 ≠ R →
        ¬(kv.2 = true ∧ dictGetD s.pending_comment_counts kv.1 0 = 0))
    (hpending : dictGetD s2.pending_comment_counts R 0 ≠ 0) :
    awaitComments s = some (AwaitResult.approved R, s) ∧
    (∀ res t, awaitComments s2 = some (res, t) → res ≠ AwaitResult.approved R) := by
  constructor
  · have hf := find_first_approved s.review_approved s.pending_comment_counts R
      happ hdrained hothers
    unfold awaitComments
    rw [hf]
  · intro res t hres hcontra
    subst hcontra
    unfold awaitComments at hres
    cases hf : s2.review_approved.find?
        (fun kv => kv.2 && decide (dictGetD s2.pending_comment_counts kv.1 0 = 0)) with
    | some kv =>
      rw [hf] at hres
      have hkv := List.find?_some hf
      rw [Bool.and_eq_true] at hkv
      rcases hkv with ⟨hv, hd⟩
      have hk1 : kv.1 = R := by
        have := Option.some.inj hres
        have h1 := congrArg Prod.fst this
        simpa using h1
      exact hpending (hk1 ▸ of_decide_eq_true hd)
    | none =>
      rw [hf] at hres
      cases hq : s2.pending_comments with
      | nil => rw [hq] at hres; simp at hres
      | cons pc rest2 => rw [hq] at hres; simp at hres

/-- C5 witness: a single review "R", approved after its queue is drained
(here: no comment was ever submitted), and separately a state in which a
comment for "R" is still pending. -/
theorem c5_approval_liveness_witness :
    (dictGetOpt (approveReview (createReview initState "R") "R").review_approved "R"
        = some true) ∧
    (dictGetD (approveReview (createReview initState "R") "R").pending_comment_counts "R" 0
        = 0) ∧
    (dictGetD (submitComment (createReview initState "R") "R"
        cComment).pending_comment_counts "R" 0 ≠ 0) ∧
    (awaitComments (approveReview (createReview initState "R") "R")
        = some (AwaitResult.approved "R", approveReview (createReview initState "R") "R") ∧
      (∀ res t, awaitComments (submitComment (createReview initState "R") "R" cComment)
          = some (res, t) → res ≠ AwaitResult.approved "R")) :=
  ⟨rfl, rfl, by decide,
   c5_approval_liveness (approveReview (createReview initState "R") "R")
     (submitComment (createReview initState "R") "R" cComment) "R"
     rfl rfl (by decide) (by decide)⟩

/-- C3: from any state with an empty queue and no approval flag set,
submitting comments c1, c2, c3 in that order (to existing reviews r1, r2,
r3, possibly equal) makes three successive wait calls return exactly those
comments in submission order, and after each call the returned comment's
stored status is InProgress. -/
theorem c3_queue_fifo (s : ManagerState) (r1 r2 r3 : String) (c1 c2 c3 : Comment)
    (hq : s.pending_comments = [])
    (ha : ∀ kv ∈ s.review_approved, kv.2 = false)
    (h1 : (dictGetOpt s.active_reviews r1).isSome = true)
    (h2 : (dictGetOpt s.active_reviews r2).isSome = true)
    (h3 : (dictGetOpt s.active_reviews r3).isSome = true)
    (hc1 : c1.status = CommentStatus.queued)
    (hc2 : c2.status = CommentStatus.queued)
    (hc3 : c3.status = CommentStatus.queued) :
    ∃ t1 t2 t3,
      awaitComments (submitComment (submitComment (submitComment s r1 c1) r2 c2) r3 c3)
          = some (AwaitResult.comment { review_id := r1, comment := c1 }, t1) ∧
      commentStatus t1 r1 c1.id = some CommentStatus.inProgress ∧
      awaitComments t1 = some (AwaitResult.comment { review_id := r2, comment := c2 }, t2) ∧
      commentStatus t2 r2 c2.id = some CommentStatus.inProgress ∧
      awaitComments t2 = some (AwaitResult.comment { review_id := r3, comment := c3 }, t3) ∧
      commentStatus t3 r3 c3.id = some CommentStatus.inProgress := by
  set s1 := submitComment s r1 c1 with e1
  set s2 := submitComment s1 r2 c2 with e2
  set s3 := submitComment s2 r3 c3 with e3
  have h1b : (dictGetOpt s1.active_reviews r2).isSome = true :=
    submit_review_isSome s r1 r2 c1 h2
  have h1c : (dictGetOpt s1.active_reviews r3).isSome = true :=
    submit_review_isSome s r1 r3 c1 h3
  have h2c : (dictGetOpt s2.active_reviews r3).isSome = true :=
    submit_review_isSome s1 r2 r3 c2 h1c
  -- queue contents after the three submissions
  have q1 : s1.pending_comments = [{ review_id := r1, comment := c1 }] := by
    rw [e1, submit_pending s r1 c1 h1, hq, comment_set_queued_eq c1 hc1]
    rfl
  have q2 : s2.pending_comments
      = [{ review_id := r1, comment := c1 }, { review_id := r2, comment := c2 }] := by
    rw [e2, submit_pending s1 r2 c2 h1b, q1, comment_set_queued_eq c2 hc2]
    rfl
  have q3 : s3.pending_comments
      = [{ review_id := r1, comment := c1 }, { review_id := r2, comment := c2 },
         { review_id := r3, comment := c3 }] := by
    rw [e3, submit_pending s2 r3 c3 h2c, q2, comment_set_queued_eq c3 hc3]
    rfl
  -- approval flags are untouched by submissions
  have a3 : s3.review_approved = s.review_approved := by
    rw [e3, submit_review_approved, e2, submit_review_approved, e1,
      submit_review_approved]
  have ha3 : ∀ kv ∈ s3.review_approved, kv.2 = false := by
    rw [a3]; exact ha
  -- the submitted comments are present in their reviews' stores
  have st1 : (commentStatus s3 r1 c1.id).isSome = true := by
    have hb : (commentStatus s1 r1 c1.id).isSome = true := by
      rw [submit_hasComment s r1 c1 h1]; rfl
    exact submit_hasComment_mono s2 r3 r1 c1.id c3
      (submit_hasComment_mono s1 r2 r1 c1.id c2 hb)
  have st2 : (commentStatus s3 r2 c2.id).isSome = true := by
    have hb : (commentStatus s2 r2 c2.id).isSome = true := by
      rw [submit_hasComment s1 r2 c2 h1b]; rfl
    exact submit_hasComment_mono s2 r3 r2 c2.id c3 hb
  have st3 : (commentStatus s3 r3 c3.id).isSome = true := by
    rw [submit_hasComment s2 r3 c3 h2c]; rfl
  -- first dequeue
  have w1 := awaitComments_dequeue s3 { review_id := r1, comment := c1 }
    [{ review_id := r2, comment := c2 }, { review_id := r3, comment := c3 }] ha3 q3
  set t1 := dequeueStep s3 { review_id := r1, comment := c1 }
    [{ review_id := r2, comment := c2 }, { review_id := r3, comment := c3 }] with et1
  have s1t : commentStatus t1 r1 c1.id = some CommentStatus.inProgress :=
    dequeue_status_self s3 { review_id := r1, comment := c1 } _ st1
  have hat1 : ∀ kv ∈ t1.review_approved, kv.2 = false := ha3
  have qt1 : t1.pending_comments
      = [{ review_id := r2, comment := c2 }, { review_id := r3, comment := c3 }] := rfl
  have st2t1 : (commentStatus t1 r2 c2.id).isSome = true :=
    dequeue_hasComment_mono s3 _ _ r2 c2.id st2
  have st3t1 : (commentStatus t1 r3 c3.id).isSome = true :=
    dequeue_hasComment_mono s3 _ _ r3 c3.id st3
  -- second dequeue
  have w2 := awaitComments_dequeue t1 { review_id := r2, comment := c2 }
    [{ review_id := r3, comment := c3 }] hat1 qt1
  set t2 := dequeueStep t1 { review_id := r2, comment := c2 }
    [{ review_id := r3, comment := c3 }] with et2
  have s2t : commentStatus t2 r2 c2.id = some CommentStatus.inProgress :=
    dequeue_status_self t1 { review_id := r2, comment := c2 } _ st2t1
  have hat2 : ∀ kv ∈ t2.review_approved, kv.2 = false := hat1
  have qt2 : t2.pending_comments = [{ review_id := r3, comment := c3 }] := rfl
  have st3t2 : (commentStatus t2 r3 c3.id).isSome = true :=
    dequeue_hasComment_mono t1 _ _ r3 c3.id st3t1
  -- third dequeue
  have w3 := awaitComments_dequeue t2 { review_id := r3, comment := c3 } [] hat2 qt2
  set t3 := dequeueStep t2 { review_id := r3, comment := c3 } [] with et3
  have s3t : commentStatus t3 r3 c3.id = some CommentStatus.inProgress :=
    dequeue_status_self t2 { review_id := r3, comment := c3 } _ st3t2
  exact ⟨t1, t2, t3, w1, s1t, w2, s2t, w3, s3t⟩

/-- C3 witness: one review "r", three comments with ids "a", "b", "c"
submitted to it in that order. -/
theorem c3_queue_fifo_witness :
    ((createReview initState "r").pending_comments = []) ∧
    (∀ kv ∈ (createReview initState "r").review_approved, kv.2 = false) ∧
    ((dictGetOpt (createReview initState "r").active_reviews "r").isSome = true) ∧
    (∃ t1 t2 t3,
      awaitComments (submitComment (submitComment (submitComment
          (createReview initState "r") "r"
          { id := "a", file_path := "f", line_number := 1, side := "right",
            content := "x", author := "User", timestamp := "t",
            status := CommentStatus.queued }) "r"
          { id := "b", file_path := "f", line_number := 2, side := "right",
            content := "y", author := "User", timestamp := "t",
            status := CommentStatus.queued }) "r"
          { id := "c", file_path := "f", line_number := 3, side := "right",
            content := "z", author := "User", timestamp := "t",
            status := CommentStatus.queued })
        = some (AwaitResult.comment { review_id := "r", comment :=
            { id := "a", file_path := "f", line_number := 1, side := "right",
              content := "x", author := "User", timestamp := "t",
              status := CommentStatus.queued } }, t1) ∧
      commentStatus t1 "r" "a" = some CommentStatus.inProgress ∧
      awaitComments t1
        = some (AwaitResult.comment { review_id := "r", comment :=
            { id := "b", file_path := "f", line_number := 2, side := "right",
              content := "y", author := "User", timestamp := "t",
              status := CommentStatus.queued } }, t2) ∧
      commentStatus t2 "r" "b" = some CommentStatus.inProgress ∧
      awaitComments t2
        = some (AwaitResult.comment { review_id := "r", comment :=
            { id := "c", file_path := "f", line_number := 3, side := "right",
              content := "z", author := "User", timestamp := "t",
              status := CommentStatus.queued } }, t3) ∧
      commentStatus t3 "r" "c" = some CommentStatus.inProgress) :=
  ⟨rfl, by decide, rfl,
   c3_queue_fifo (createReview initState "r") "r" "r" "r"
     { id := "a", file_path := "f", line_number := 1, side := "right",
       content := "x", author := "User", timestamp := "t",
       status := CommentStatus.queued }
     { id := "b", file_path := "f", line_number := 2, side := "right",
       content := "y", author := "User", timestamp := "t",
       status := CommentStatus.queued }
     { id := "c", file_path := "f", line_number := 3, side := "right",
       content := "z", author := "User", timestamp := "t",
       status := CommentStatus.queued }
     rfl (by decide) rfl rfl rfl rfl rfl rfl⟩

/-! ### Merge lemmas -/

theorem replaceFirst_cons (f : DiffFile) (rest : List DiffFile) (p : String)
    (nf : DiffFile) :
    replaceFirstByPath (f :: rest) p nf
      = if f.path = p then nf :: rest else f :: replaceFirstByPath rest p nf := rfl

theorem mergeLoop_cons (mfs merged : List DiffFile) (af : DiffFile)
    (rest : List DiffFile) :
    mergeLoop mfs merged (af :: rest)
      = match mainFilesLookup mfs af.path with
        | some mf => mergeLoop mfs (replaceFirstByPath merged af.path (combineFiles mf af)) rest
        | none => mergeLoop mfs (merged ++ [af]) rest := rfl

theorem specMergeFile_path (extra : List DiffFile) (b : DiffFile) :
    (specMergeFile extra b).path = b.path := by
  unfold specMergeFile
  cases hf : extra.find? (fun e => decide (e.path = b.path)) with
  | none => rfl
  | some e =>
    have he := List.find?_some hf
    have hep : e.path = b.path := of_decide_eq_true he
    simp [combineFiles, hep]

theorem specMergeFile_append_ne (done : List DiffFile) (af b : DiffFile)
    (h : ¬af.path = b.path) :
    specMergeFile (done ++ [af]) b = specMergeFile done b := by
  unfold specMergeFile
  rw [List.find?_append]
  cases hf : done.find? (fun e => decide (e.path = b.path)) with
  | some e => rfl
  | none =>
    have h1 : ([af].find? (fun e => decide (e.path = b.path))) = none := by
      simp [List.find?, h]
    rw [h1]
    rfl

theorem specMergeFile_append_eq (done : List DiffFile) (af b : DiffFile)
    (h : af.path = b.path) (hdone : ∀ d ∈ done, ¬d.path = af.path) :
    specMergeFile (done ++ [af]) b = combineFiles b af := by
  unfold specMergeFile
  rw [List.find?_append]
  have hnone : done.find? (fun e => decide (e.path = b.path)) = none := by
    apply List.find?_eq_none.mpr
    intro d hd
    simp only [decide_eq_true_eq]
    intro hdp
    exact hdone d hd (hdp.trans h.symm)
  rw [hnone]
  have haf : [af].find? (fun e => decide (e.path = b.path)) = some af := by
    simp [List.find?, h]
  rw [haf]
  rfl

theorem lookupLast_eq_find (l : List DiffFile) (p : String)
    (hl : l.Pairwise (fun a b => a.path ≠ b.path)) :
    mainFilesLookup l p = l.find? (fun f => decide (f.path = p)) := by
  induction l with
  | nil => rfl
  | cons f rest ih =>
    rw [List.pairwise_cons] at hl
    obtain ⟨hf, hrest⟩ := hl
    unfold mainFilesLookup
    rw [List.reverse_cons, List.find?_append]
    by_cases hp : f.path = p
    · have hnone : rest.find? (fun g => decide (g.path = p)) = none := by
        apply List.find?_eq_none.mpr
        intro g hg
        simp only [decide_eq_true_eq]
        intro hgp
        exact hf g hg (hp.trans hgp.symm)
      have hnone2 : rest.reverse.find? (fun g => decide (g.path = p)) = none := by
        apply List.find?_eq_none.mpr
        intro g hg
        exact List.find?_eq_none.mp hnone g (List.mem_reverse.mp hg)
      rw [hnone2]
      simp [List.find?, hp]
    · have h1 : [f].find? (fun g => decide (g.path = p)) = none := by
        simp [List.find?, hp]
      rw [h1]
      have h2 : rest.find? (fun g => decide (g.path = p))
          = (f :: rest).find? (fun g => decide (g.path = p)) := by
        rw [@List.find?_cons_of_neg DiffFile
          (fun g => decide (g.path = p)) f rest (by simp [hp])]
      rw [← h2]
      have ih2 := ih hrest
      unfold mainFilesLookup at ih2
      rw [← ih2]
      cases rest.reverse.find? (fun g => decide (g.path = p)) <;> rfl

theorem replace_into_map (base : List DiffFile) (tl done : List DiffFile)
    (af mf : DiffFile)
    (hb : base.Pairwise (fun a b => a.path ≠ b.path))
    (hdone : ∀ d ∈ done, ¬d.path = af.path)
    (hfind : base.find? (fun b => decide (b.path = af.path)) = some mf) :
    replaceFirstByPath (base.map (specMergeFile done) ++ tl) af.path (combineFiles mf af)
      = base.map (specMergeFile (done ++ [af])) ++ tl := by
  induction base with
  | nil => simp [List.find?] at hfind
  | cons b brest ih =>
    rw [List.pairwise_cons] at hb
    obtain ⟨hbb, hbrest⟩ := hb
    by_cases hp : b.path = af.path
    · have hmf : b = mf := by
        rw [@List.find?_cons_of_pos DiffFile
          (fun b => decide (b.path = af.path)) b brest (by simp [hp])] at hfind
        exact Option.some.inj hfind
      subst hmf
      rw [List.map_cons, List.cons_append, replaceFirst_cons]
      have hpath : (specMergeFile done b).path = af.path := by
        rw [specMergeFile_path]; exact hp
      rw [if_pos hpath, List.map_cons, List.cons_append]
      congr 1
      · rw [specMergeFile_append_eq done af b hp.symm hdone]
      · congr 1
        apply List.map_congr_left
        intro r hr
        have hne : ¬af.path = r.path := fun he => hbb r hr (hp.trans he)
        exact (specMergeFile_append_ne done af r hne).symm
    · have hfind2 : brest.find? (fun b => decide (b.path = af.path)) = some mf := by
        rw [@List.find?_cons_of_neg DiffFile
          (fun b => decide (b.path = af.path)) b brest (by simp [hp])] at hfind
        exact hfind
      rw [List.map_cons, List.cons_append, replaceFirst_cons]
      have hpath : ¬((specMergeFile done b).path = af.path) := by
        rw [specMergeFile_path]; exact hp
      rw [if_neg hpath, ih hbrest hfind2, List.map_cons, List.cons_append]
      congr 1
      exact (specMergeFile_append_ne done af b (fun he => hp he.symm)).symm

theorem specMerge_append_new (base done : List DiffFile) (af : DiffFile)
    (hfind : base.find? (fun b => decide (b.path = af.path)) = none) :
    specMerge base done ++ [af] = specMerge base (done ++ [af]) := by
  have hall : ∀ b ∈ base, ¬b.path = af.path := by
    intro b hbm
    have hh := List.find?_eq_none.mp hfind b hbm
    simpa using hh
  unfold specMerge
  have hmap : base.map (specMergeFile (done ++ [af])) = base.map (specMergeFile done) :=
    List.map_congr_left (fun b hbm => specMergeFile_append_ne done af b
      (fun he => hall b hbm he.symm))
  rw [hmap, List.filter_append]
  have hq : pathNotIn base af = true := by
    unfold pathNotIn
    simp only [Bool.not_eq_true', List.any_eq_false, decide_eq_true_eq]
    exact hall
  have hone : [af].filter (pathNotIn base) = [af] := by
    simp [List.filter, hq]
  rw [hone, List.append_assoc]

theorem mergeLoop_spec (base : List DiffFile)
    (hb : base.Pairwise (fun a b => a.path ≠ b.path)) :
    ∀ todo done : List DiffFile,
      (∀ d ∈ done, ∀ t ∈ todo, d.path ≠ t.path) →
      todo.Pairwise (fun a b => a.path ≠ b.path) →
      mergeLoop base (specMerge base done) todo = specMerge base (done ++ todo) := by
  intro todo
  induction todo with
  | nil =>
    intro done _ _
    rw [List.append_nil]
    rfl
  | cons af rest ih =>
    intro done hcross hp
    rw [List.pairwise_cons] at hp
    obtain ⟨haf, hrest⟩ := hp
    rw [mergeLoop_cons, lookupLast_eq_find base af.path hb]
    have hcross2 : ∀ d ∈ done ++ [af], ∀ t ∈ rest, d.path ≠ t.path := by
      intro d hd t ht
      rcases List.mem_append.mp hd with hd1 | hd2
      · exact hcross d hd1 t (List.mem_cons_of_mem _ ht)
      · have hdaf : d = af := by simpa using hd2
        subst hdaf
        exact haf t ht
    cases hfind : base.find? (fun b => decide (b.path = af.path)) with
    | some mf =>
      show mergeLoop base
          (replaceFirstByPath (specMerge base done) af.path (combineFiles mf af)) rest
        = specMerge base (done ++ af :: rest)
      have hdone : ∀ d ∈ done, ¬d.path = af.path :=
        fun d hd => hcross d hd af (List.mem_cons_self _ _)
      have hsm : specMerge base done
          = base.map (specMergeFile done) ++ done.filter (pathNotIn base) := rfl
      rw [hsm, replace_into_map base (done.filter (pathNotIn base)) done af mf hb
        hdone hfind]
      have hfilter : (done ++ [af]).filter (pathNotIn base)
          = done.filter (pathNotIn base) := by
        rw [List.filter_append]
        have hin : pathNotIn base af = false := by
          unfold pathNotIn
          simp only [Bool.not_eq_false', List.any_eq_true, decide_eq_true_eq]
          have hpred := List.find?_some hfind
          simp only [decide_eq_true_eq] at hpred
          exact ⟨mf, List.mem_of_find?_eq_some hfind, hpred⟩
        simp [List.filter, hin]
      have hsm2 : specMerge base (done ++ [af])
          = base.map (specMergeFile (done ++ [af])) ++ done.filter (pathNotIn base) := by
        unfold specMerge
        rw [hfilter]
      rw [← hsm2, ih (done ++ [af]) hcross2 hrest, List.append_assoc]
      rfl
    | none =>
      show mergeLoop base (specMerge base done ++ [af]) rest
        = specMerge base (done ++ af :: rest)
      rw [specMerge_append_new base done af hfind,
        ih (done ++ [af]) hcross2 hrest, List.append_assoc]
      rfl

/-- C7 amended: when no two base files share a path and no two extra files
share a path, the merge keeps every base file at its original position —
replaced by the combined record exactly when a file with the same path
occurs in extra — followed by the extra files whose path occurs in no base
file, in their original order (so a path present in both inputs appears
exactly once). -/
theorem c7_merge_characterization (base extra : List DiffFile)
    (hb : base.Pairwise (fun a b => a.path ≠ b.path))
    (he : extra.Pairwise (fun a b => a.path ≠ b.path)) :
    mergeDiffFiles base extra = specMerge base extra := by
  have h0 : specMerge base [] = base := by
    unfold specMerge
    simp only [List.filter_nil]
    rw [List.append_nil]
    have hid : ∀ b ∈ base, specMergeFile [] b = id b := fun b _ => rfl
    rw [List.map_congr_left hid, List.map_id]
  have hcross0 : ∀ d ∈ ([] : List DiffFile), ∀ t ∈ extra, d.path ≠ t.path := by
    intro d hd
    simp at hd
  have hloop := mergeLoop_spec base hb extra [] hcross0 he
  rw [h0] at hloop
  unfold mergeDiffFiles
  simpa using hloop

/-- C7 witness: two base files with distinct paths "a", "b" and two extra
files with distinct paths "b", "c". -/
theorem c7_merge_characterization_witness :
    ([mkFile "a" none 1, mkFile "b" none 2].Pairwise
        (fun f g => f.path ≠ g.path)) ∧
    ([mkFile "b" (some "old") 3, mkFile "c" none 4].Pairwise
        (fun f g => f.path ≠ g.path)) ∧
    mergeDiffFiles [mkFile "a" none 1, mkFile "b" none 2]
        [mkFile "b" (some "old") 3, mkFile "c" none 4]
      = specMerge [mkFile "a" none 1, mkFile "b" none 2]
          [mkFile "b" (some "old") 3, mkFile "c" none 4] :=
  ⟨by decide, by decide,
   c7_merge_characterization [mkFile "a" none 1, mkFile "b" none 2]
     [mkFile "b" (some "old") 3, mkFile "c" none 4] (by decide) (by decide)⟩

/-- C1 (code bug): the spec says each file's `additions`/`deletions` equal
the Addition/Deletion line counts across that file's chunks.  Parsing
`twoFileDiff` refutes this: file `A` is emitted with `additions = 1` but no
chunks at all (its open hunk is never attached), and that hunk leaks into
file `B`, whose chunks then hold 2 Addition lines against `additions = 1`. -/
theorem c1_addition_count_mismatch :
    (parseDiffOutput twoFileDiff).map
        (fun f => (f.path, f.additions, chunkAddCount f.chunks,
                   f.deletions, chunkDelCount f.chunks))
      = [("A", 1, 0, 0, 0), ("B", 1, 2, 0, 0)] := rfl

/-- C2 (code bug): at a `diff --git` boundary with a chunk open, the claim
says the open chunk is attached to the current file before it is emitted
and the fresh file record inherits no chunk state.  The step function
instead emits file `A` with `chunks = []`, leaving the non-empty open chunk
in place next to the freshly opened record for `B`. -/
theorem c2_file_boundary_bug :
    processLine stateA "diff --git a/B b/B" =
      { files := [{ path := "A", old_path := none, additions := 1, deletions := 0,
                    chunks := [], is_binary := false, is_renamed := false }],
        current_file := some { old_path := "B", path := "B", chunks := [],
                               additions := 0, deletions := 0,
                               is_binary := false, is_renamed := false },
        current_chunk := some chunkA } ∧
    chunkA.lines ≠ [] :=
  ⟨rfl, by decide⟩

/-- C6: the end-to-end scenario of spec §8 — the sample diff text parses to
exactly one file `f` with 2 additions, 1 deletion, `old_path` normalized to
`none`, and one chunk holding the Deletion ("old", old line 1) followed by
the two Additions ("new1" at new line 1, "new2" at new line 2). -/
theorem c6_end_to_end_scenario :
    parseDiffOutput endDiff =
      [{ path := "f", old_path := none, additions := 2, deletions := 1,
         chunks := [{ old_start := 1, old_lines := 1, new_start := 1, new_lines := 2,
                      lines := [{ type := LineType.deletion, old_num := some 1,
                                  new_num := none, content := "old" },
                                { type := LineType.addition, old_num := none,
                                  new_num := some 1, content := "new1" },
                                { type := LineType.addition, old_num := none,
                                  new_num := some 2, content := "new2" }] }],
         is_binary := false, is_renamed := false }] := rfl

/-- C4 (code bug): the claim says every enqueued comment is eventually
dequeued, regardless of which reviews have their approval flag set.  In
`c4State` review r1 has been approved and drained while a comment for r2
sits in the queue; because `_review_approved` is never cleared, every one
of the first n calls (for every n) returns `ReviewApproved r1` again and
the state never changes, so r2's comment is never delivered. -/
theorem c4_comment_starvation :
    ∀ n : Nat,
      c4State.pending_comments = [{ review_id := "r2", comment := cComment }] ∧
      awaitN n c4State = (List.replicate n (AwaitResult.approved "r1"), c4State) := by
  intro n
  refine ⟨rfl, ?_⟩
  induction n with
  | zero => rfl
  | succ k ih =>
    have h : awaitComments c4State = some (AwaitResult.approved "r1", c4State) := rfl
    rw [awaitN, h]
    show (AwaitResult.approved "r1" :: (awaitN k c4State).1, (awaitN k c4State).2) = _
    rw [ih, List.replicate_succ]

/-- C5 counterexample: in `c5State` every comment for review `R` has been
drained (its pending count is 0) and `R`'s approval flag is set, yet the
next wait call returns a `ReviewApproved` result for the earlier-approved
review `r0`, not for `R`. -/
theorem c5_stale_approval_counterexample :
    dictGetOpt c5State.review_approved "R" = some true ∧
    dictGetD c5State.pending_comment_counts "R" 0 = 0 ∧
    awaitComments c5State = some (AwaitResult.approved "r0", c5State) ∧
    "r0" ≠ "R" :=
  ⟨rfl, rfl, rfl, by decide⟩

/-- C7 counterexample: with a duplicated path inside `base`, the merge
output contains the path twice (the claim requires exactly once, and the
in-place combination uses the last base record, not each base record);
moreover with `base.old_path = some ""` the combined record takes extra's
`old_path` even though base's is set (Python falsiness of `""`). -/
theorem c7_duplicate_path_counterexample :
    ([mkFile "p" none 1, mkFile "p" none 2].countP (fun f => decide (f.path = "p")) = 2) ∧
    ([mkFile "p" none 3].countP (fun f => decide (f.path = "p")) = 1) ∧
    (mergeDiffFiles [mkFile "p" none 1, mkFile "p" none 2]
        [mkFile "p" none 3]).countP (fun f => decide (f.path = "p")) = 2 ∧
    (mergeDiffFiles [mkFile "q" (some "") 0] [mkFile "q" (some "x") 0]).map
        (fun f => f.old_path) = [some "x"] :=
  ⟨rfl, rfl, rfl, rfl⟩

/-- C8: from a fresh debounce state, two modifications of the same path at
times t1 ≤ t2 (t1 past the initial window) yield exactly one FileChanged
event when they are closer than the debounce window, and one event each
when they are at least the window apart. -/
theorem c8_debounce (p : String) (t1 t2 : ℚ) (h0 : debounceTime ≤ t1) :
    (t2 - t1 < debounceTime →
      (countEmitted p { last_event_times := [] } [t1, t2]).1 = 1) ∧
    (debounceTime ≤ t2 - t1 →
      (countEmitted p { last_event_times := [] } [t1, t2]).1 = 2) := by
  have e1 : ¬(t1 - dictGetD ([] : List (String × ℚ)) p 0 < debounceTime) := by
    simp only [dictGetD, dictGetOpt, Option.getD_none, sub_zero]
    exact not_lt.mpr h0
  have hlast : dictGetD (dictSet ([] : List (String × ℚ)) p t1) p 0 = t1 := by
    simp [dictGetD, dictGetOpt, dictSet]
  constructor
  · intro h
    simp only [countEmitted, shouldEmitEvent, if_neg e1, hlast, if_pos h]
    norm_num
  · intro h
    have e2 : ¬(t2 - t1 < debounceTime) := not_lt.mpr h
    simp only [countEmitted, shouldEmitEvent, if_neg e1, hlast, if_neg e2]
    norm_num

/-- C8 witness: path "f", times 1 and 5/4 (closer than the window) and
times 1 and 2 (farther apart). -/
theorem c8_debounce_witness :
    (debounceTime ≤ (1 : ℚ)) ∧
    (((5 : ℚ)/4 - 1 < debounceTime →
        (countEmitted "f" { last_event_times := [] } [1, 5/4]).1 = 1) ∧
      (debounceTime ≤ (5 : ℚ)/4 - 1 →
        (countEmitted "f" { last_event_times := [] } [1, 5/4]).1 = 2)) ∧
    (((2 : ℚ) - 1 < debounceTime →
        (countEmitted "f" { last_event_times := [] } [1, 2]).1 = 1) ∧
      (debounceTime ≤ (2 : ℚ) - 1 →
        (countEmitted "f" { last_event_times := [] } [1, 2]).1 = 2)) :=
  ⟨by norm_num [debounceTime],
   c8_debounce "f" 1 (5/4) (by norm_num [debounceTime]),
   c8_debounce "f" 1 2 (by norm_num [debounceTime])⟩

/-- C9: a failing git subprocess call whose stderr contains "does not
exist" or "bad revision" yields empty text instead of an error; parsing
empty diff text yields the empty file list; and any other failure
propagates as an explicit error carrying the command and stderr. -/
theorem c9_git_error_handling (cmd : List String) (res res2 : ProcResult)
    (h1 : res.returncode ≠ 0)
    (h2 : strContains res.stderr "does not exist" = true ∨
          strContains res.stderr "bad revision" = true)
    (h3 : res2.returncode ≠ 0)
    (h4 : strContains res2.stderr "does not exist" = false)
    (h5 : strContains res2.stderr "bad revision" = false) :
    runGitCommand cmd res = Except.ok "" ∧
    parseDiffOutput "" = [] ∧
    runGitCommand cmd res2 =
      Except.error ("Git command failed: " ++ String.intercalate " " cmd ++ ": " ++
        res2.stderr) := by
  refine ⟨?_, rfl, ?_⟩
  · unfold runGitCommand
    rw [if_neg h1]
    rcases h2 with h2 | h2 <;> simp [h2]
  · unfold runGitCommand
    rw [if_neg h3]
    simp [h4, h5]

/-- C9 witness: a "bad revision" failure, and a distinct fatal failure. -/
theorem c9_git_error_handling_witness :
    ((128 : Int) ≠ 0) ∧
    (strContains "fatal: bad revision one" "does not exist" = true ∨
      strContains "fatal: bad revision one" "bad revision" = true) ∧
    (strContains "fatal: not a git repository" "does not exist" = false) ∧
    (strContains "fatal: not a git repository" "bad revision" = false) ∧
    (runGitCommand ["git", "diff", "HEAD"]
        { returncode := 128, stdout := "", stderr := "fatal: bad revision one" } =
      Except.ok "" ∧
    parseDiffOutput "" = [] ∧
    runGitCommand ["git", "diff", "HEAD"]
        { returncode := 128, stdout := "", stderr := "fatal: not a git repository" } =
      Except.error ("Git command failed: " ++
        String.intercalate " " ["git", "diff", "HEAD"] ++ ": " ++
        "fatal: not a git repository")) :=
  ⟨by decide, Or.inr (by decide), by decide, by decide,
   c9_git_error_handling ["git", "diff", "HEAD"]
     { returncode := 128, stdout := "", stderr := "fatal: bad revision one" }
     { returncode := 128, stdout := "", stderr := "fatal: not a git repository" }
     (by decide) (Or.inr (by decide)) (by decide) (by decide) (by decide)⟩

/-- C10: once a start call has succeeded (`_is_watching` became true),
every subsequent start call — even for a different directory — returns the
state unchanged, so no new watch is established and the watched set stays
as it was. -/
theorem c10_start_watching_idempotent (s : WatcherState) (d0 d1 : String) (ok : Bool)
    (h : s.is_watching = false) :
    (startWatching s d0 true).is_watching = true ∧
    startWatching (startWatching s d0 true) d1 ok = startWatching s d0 true := by
  have h1 : (startWatching s d0 true).is_watching = true := by
    unfold startWatching
    rw [h]
    simp
  refine ⟨h1, ?_⟩
  conv_lhs => rw [startWatching]
  rw [h1]
  simp

/-- C10 witness: a fresh watcher started on "/repo", then asked to start
again on "/other". -/
theorem c10_start_watching_idempotent_witness :
    ((⟨false, [], false⟩ : WatcherState).is_watching = false) ∧
    ((startWatching ⟨false, [], false⟩ "/repo" true).is_watching = true ∧
      startWatching (startWatching ⟨false, [], false⟩ "/repo" true) "/other" false =
        startWatching ⟨false, [], false⟩ "/repo" true) :=
  ⟨rfl, c10_start_watching_idempotent ⟨false, [], false⟩ "/repo" "/other" false rfl⟩

end Backloop
